import Mathlib

/-!
Verification of the segment aggregation and caching core
(`cloud/backend/aggregator.py` and `cloud/backend/cache.py`).

Modelling conventions:
* Python floats are modelled as rationals (`ℚ`); a float field that can
  become NaN is modelled as `Option ℚ`, with `none` standing for NaN.
* `datetime` values are modelled as rational timestamps in seconds;
  every call to `datetime.utcnow()` becomes an explicit `now` parameter.
* The Python `dict` of buffers is modelled as an association list whose
  reachable states have pairwise distinct keys.
* `collections.deque(maxlen=10)` is modelled by `dequeAppend`, which
  drops from the front once the length bound is exceeded.
-/

namespace RoadComfort

/-- Model of `VehicleSample` from aggregator.py: one vehicle observation. -/
structure VehicleSample where
  comfort_score : ℚ
  confidence : ℚ
  vehicle_id : String
  timestamp : ℚ
  speed : ℚ
  heading : ℚ
deriving DecidableEq

/-- The hard-coded `deque(maxlen=10)` bound in `SegmentBuffer.samples`. -/
def WINDOW_MAXLEN : Nat := 10

/-- The hard-coded `>= 10` threshold in `SegmentBuffer.is_finalized`. -/
def FINALIZE_N : Nat := 10

/-- The hard-coded `timedelta(days=30)` in `SegmentBuffer._update_aggregation`,
in seconds. -/
def BUFFER_TTL_SECONDS : ℚ := 2592000

/-- Model of `SegmentBuffer` from aggregator.py. `aggregated_score = none` models a
NaN float; `expires_at = none` models the `Optional[datetime]` default. -/
structure SegmentBuffer where
  segment_id : String
  samples : List VehicleSample
  aggregated_score : Option ℚ
  last_updated : ℚ
  expires_at : Option ℚ
deriving DecidableEq

/-- Appending to a `deque(maxlen=n)`: the element is appended, and the
front is dropped so that at most `n` elements remain. -/
def dequeAppend (n : Nat) (w : List VehicleSample) (x : VehicleSample) :
    List VehicleSample :=
  if n < (w ++ [x]).length then (w ++ [x]).drop ((w ++ [x]).length - n)
  else w ++ [x]

/-- Sum of the window's confidences, the `np.sum(weights)` of the source. -/
def weightSum (w : List VehicleSample) : ℚ :=
  (w.map VehicleSample.confidence).sum

/-- The numerator of the weighted average: sum of score times confidence. -/
def scoreWeightSum (w : List VehicleSample) : ℚ :=
  (w.map (fun s => s.comfort_score * s.confidence)).sum

/-- Model of the method that recomputes the aggregation. On the empty window the score is
reset to 0.5 and nothing else changes (early return). Otherwise the code
computes `weights / np.sum(weights)` and `np.average`: when the confidence
sum is zero the float result is NaN (modelled as `none`), with no error
raised; then `expires_at` is set 30 days past `last_updated`. -/
def SegmentBuffer.updateAggregation (b : SegmentBuffer) : SegmentBuffer :=
  if b.samples = [] then { b with aggregated_score := some (1/2) }
  else
    { b with
      aggregated_score :=
        if weightSum b.samples = 0 then none
        else some (scoreWeightSum b.samples / weightSum b.samples),
      expires_at := some (b.last_updated + BUFFER_TTL_SECONDS) }

/-- Model of `SegmentBuffer.add_sample`: append to the deque, stamp `last_updated`,
recompute the aggregation. -/
def SegmentBuffer.addSample (now : ℚ) (b : SegmentBuffer) (s : VehicleSample) :
    SegmentBuffer :=
  SegmentBuffer.updateAggregation
    { b with samples := dequeAppend WINDOW_MAXLEN b.samples s, last_updated := now }

/-- Model of `SegmentBuffer.is_valid`: false when `expires_at` is unset, otherwise
`now < expires_at`. -/
def SegmentBuffer.isValid (now : ℚ) (b : SegmentBuffer) : Bool :=
  match b.expires_at with
  | none => false
  | some e => now < e

/-- Model of `SegmentBuffer.is_finalized`: `len(self.samples) >= 10` (hard-coded). -/
def SegmentBuffer.isFinalized (b : SegmentBuffer) : Bool :=
  FINALIZE_N ≤ b.samples.length

/-- Model of `SegmentBuffer.sample_count`. -/
def SegmentBuffer.sampleCount (b : SegmentBuffer) : Nat :=
  b.samples.length

/-- Model of `SegmentBuffer.average_confidence`: 0.0 on the empty window, else the
mean confidence. -/
def SegmentBuffer.averageConfidence (b : SegmentBuffer) : ℚ :=
  if b.samples = [] then 0
  else weightSum b.samples / (b.samples.length : ℚ)

/-- A fresh `SegmentBuffer(segment_id=...)`: dataclass defaults — empty
deque, score 0.5, `last_updated = utcnow()`, `expires_at = None`. -/
def newBuffer (segment_id : String) (now : ℚ) : SegmentBuffer :=
  { segment_id := segment_id, samples := [], aggregated_score := some (1/2),
    last_updated := now, expires_at := none }

/-- Model of the `AggregationService` state: the configured constants and the buffer
table. -/
structure AggregationService where
  BUFFER_LIMIT : Nat
  TTL_days : Nat
  buffers : List (String × SegmentBuffer)
deriving DecidableEq

/-- Dictionary lookup on the buffer table. -/
def lookupBuf (m : List (String × SegmentBuffer)) (k : String) :
    Option SegmentBuffer :=
  match m with
  | [] => none
  | (k2, b) :: rest => if k2 = k then some b else lookupBuf rest k

/-- Dictionary store on the buffer table: replace in place, or append. -/
def setBuf (m : List (String × SegmentBuffer)) (k : String) (b : SegmentBuffer) :
    List (String × SegmentBuffer) :=
  match m with
  | [] => [(k, b)]
  | (k2, b2) :: rest =>
    if k2 = k then (k, b) :: rest else (k2, b2) :: setBuf rest k b

/-- The `(aggregated_score, sample_count, is_finalized)` triple returned by
`AggregationService.ingest_prediction`. -/
structure IngestResult where
  aggregated_score : Option ℚ
  sample_count : Nat
  is_finalized : Bool
deriving DecidableEq

/-- Model of `AggregationService.ingest_prediction`: default the timestamp to `now`,
get or create the buffer, build the sample, add it, and return the triple.
The source performs no range validation on `comfort_score` or `confidence`
and has no failure path. -/
def AggregationService.ingestPrediction (svc : AggregationService) (now : ℚ)
    (segment_id : String) (comfort_score confidence : ℚ) (vehicle_id : String)
    (speed heading : ℚ) (timestamp : Option ℚ) :
    IngestResult × AggregationService :=
  let ts := timestamp.getD now
  let b0 := (lookupBuf svc.buffers segment_id).getD (newBuffer segment_id now)
  let s : VehicleSample :=
    { comfort_score := comfort_score, confidence := confidence,
      vehicle_id := vehicle_id, timestamp := ts, speed := speed,
      heading := heading }
  let b1 := SegmentBuffer.addSample now b0 s
  ({ aggregated_score := b1.aggregated_score, sample_count := b1.sampleCount,
     is_finalized := b1.isFinalized },
   { svc with buffers := setBuf svc.buffers segment_id b1 })

/-- The dictionary returned by `get_segment_score` / listed by
`get_all_segments`. -/
structure SegmentSnapshot where
  segment_id : String
  comfort_score : Option ℚ
  sample_count : Nat
  confidence : ℚ
  last_updated : ℚ
  expires_at : Option ℚ
  is_valid : Bool
  is_finalized : Bool
deriving DecidableEq

/-- The snapshot dictionary built from a buffer. -/
def snapshotOf (now : ℚ) (k : String) (b : SegmentBuffer) : SegmentSnapshot :=
  { segment_id := k, comfort_score := b.aggregated_score,
    sample_count := b.sampleCount, confidence := b.averageConfidence,
    last_updated := b.last_updated, expires_at := b.expires_at,
    is_valid := b.isValid now, is_finalized := b.isFinalized }

/-- Model of `AggregationService.get_segment_score`: `None` when the key is absent,
otherwise the snapshot dictionary. The service state is returned alongside
to express that the operation is a pure read. -/
def AggregationService.getSegmentScore (svc : AggregationService) (now : ℚ)
    (segment_id : String) : Option SegmentSnapshot × AggregationService :=
  match lookupBuf svc.buffers segment_id with
  | none => (none, svc)
  | some b => (some (snapshotOf now segment_id b), svc)

/-- Model of `AggregationService.get_all_segments` with its two filters. -/
def AggregationService.getAllSegments (svc : AggregationService) (now : ℚ)
    (include_invalid include_finalized_only : Bool) :
    List SegmentSnapshot × AggregationService :=
  (svc.buffers.filterMap (fun kb =>
      if include_finalized_only && !kb.2.isFinalized then none
      else if !include_invalid && !kb.2.isValid now then none
      else some (snapshotOf now kb.1 kb.2)),
   svc)

/-- Model of `AggregationService.get_recent_predictions`: empty list when the key is
absent; otherwise `list(buffer.samples)[:limit]`, i.e. the first `limit`
entries of the deque in insertion order (oldest first). -/
def AggregationService.getRecentPredictions (svc : AggregationService)
    (segment_id : String) (limit : Nat) :
    List VehicleSample × AggregationService :=
  match lookupBuf svc.buffers segment_id with
  | none => ([], svc)
  | some b => (b.samples.take limit, svc)

/-- Model of `AggregationService.cleanup_expired`: drop every buffer that is not
valid and return how many were dropped. -/
def AggregationService.cleanupExpired (svc : AggregationService) (now : ℚ) :
    Nat × AggregationService :=
  ((svc.buffers.filter (fun kb => !kb.2.isValid now)).length,
   { svc with buffers := svc.buffers.filter (fun kb => kb.2.isValid now) })

/-- The dictionary returned by `AggregationService.get_stats`.
`avg_comfort_score` is `none` when the float mean would be NaN. -/
structure ServiceStats where
  total_segments : Nat
  valid_segments : Nat
  finalized_segments : Nat
  avg_samples_per_segment : ℚ
  avg_comfort_score : Option ℚ
  finalization_rate : ℚ
deriving DecidableEq

/-- Model of `AggregationService.get_stats`: statistics over currently valid
buffers; the `np.mean` of the aggregated scores is NaN whenever one of
them is NaN. -/
def AggregationService.getStats (svc : AggregationService) (now : ℚ) :
    ServiceStats :=
  let valid := (svc.buffers.map Prod.snd).filter (fun b => b.isValid now)
  let fin := valid.filter (fun b => b.isFinalized)
  { total_segments := svc.buffers.length
    valid_segments := valid.length
    finalized_segments := fin.length
    avg_samples_per_segment :=
      if valid = [] then 0
      else ((valid.map (fun b => (b.sampleCount : ℚ))).sum) / (valid.length : ℚ)
    avg_comfort_score :=
      if valid = [] then some (1/2)
      else if valid.any (fun b => b.aggregated_score.isNone) then none
      else some (((valid.filterMap SegmentBuffer.aggregated_score).sum) /
        (valid.length : ℚ))
    finalization_rate :=
      if valid = [] then 0 else (fin.length : ℚ) / (valid.length : ℚ) }

/-- A cache entry of `CacheManager` (cache.py). -/
structure CacheEntry where
  comfort_score : ℚ
  sample_count : Nat
  confidence : ℚ
  cached_at : ℚ
  expires_at : ℚ
deriving DecidableEq

/-- Model of the `CacheManager` state (cache.py). -/
structure CacheManager where
  ttl_seconds : ℚ
  cache : List (String × CacheEntry)
deriving DecidableEq

/-- Dictionary lookup on the cache table. -/
def lookupCache (m : List (String × CacheEntry)) (k : String) :
    Option CacheEntry :=
  match m with
  | [] => none
  | (k2, e) :: rest => if k2 = k then some e else lookupCache rest k

/-- Deleting a key from the cache table. -/
def removeCache (m : List (String × CacheEntry)) (k : String) :
    List (String × CacheEntry) :=
  m.filter (fun ke => ke.1 ≠ k)

/-- Model of `CacheManager.get_segment`: absent key gives `None`; a present entry
past its expiry is deleted from the table and `None` is returned. -/
def CacheManager.getSegment (c : CacheManager) (now : ℚ) (k : String) :
    Option CacheEntry × CacheManager :=
  match lookupCache c.cache k with
  | none => (none, c)
  | some e =>
    if e.expires_at < now then (none, { c with cache := removeCache c.cache k })
    else (some e, c)

/-- A fresh default service: `AggregationService(segment_buffer_limit=10,
ttl_days=30)` with no buffers. -/
def svc0 : AggregationService :=
  { BUFFER_LIMIT := 10, TTL_days := 30, buffers := [] }

/-- The sample created by an ingest of a `(score, confidence)` pair at
time `t`, with fixed provenance fields. -/
def mkSample (t : ℚ) (p : ℚ × ℚ) : VehicleSample :=
  { comfort_score := p.1, confidence := p.2, vehicle_id := "v",
    timestamp := t, speed := 0, heading := 0 }

/-- Ingesting a sequence of `(score, confidence)` pairs into one key. -/
def ingestSeq (svc : AggregationService) (t : ℚ) (k : String)
    (l : List (ℚ × ℚ)) : AggregationService :=
  l.foldl (fun s p => (s.ingestPrediction t k p.1 p.2 "v" 0 0 none).2) svc

/-- The window contents for key `k` after ingesting `l` into a fresh
service ([] when the key is absent). -/
def windowAfter (t : ℚ) (k : String) (l : List (ℚ × ℚ)) :
    List VehicleSample :=
  match lookupBuf (ingestSeq svc0 t k l).buffers k with
  | none => []
  | some b => b.samples

/-- The stored aggregate for key `k` after ingesting `l` into a fresh
service: outer `none` = key absent, inner `none` = NaN. -/
def aggregateAfter (t : ℚ) (k : String) (l : List (ℚ × ℚ)) :
    Option (Option ℚ) :=
  (lookupBuf (ingestSeq svc0 t k l).buffers k).map SegmentBuffer.aggregated_score

/-- The finalized flag for key `k` after ingesting `l` into a fresh
service (false when the key is absent). -/
def finalizedAfter (t : ℚ) (k : String) (l : List (ℚ × ℚ)) : Bool :=
  match lookupBuf (ingestSeq svc0 t k l).buffers k with
  | none => false
  | some b => b.isFinalized

/-- The aggregate `_update_aggregation` computes on a non-empty window:
NaN (`none`) when the confidences sum to zero, else the
confidence-weighted mean. -/
def aggOf (w : List VehicleSample) : Option ℚ :=
  if weightSum w = 0 then none else some (scoreWeightSum w / weightSum w)

/-- Folding a list of samples into a buffer one `add_sample` at a time. -/
def windowFold (t : ℚ) (b : SegmentBuffer) (xs : List VehicleSample) :
    SegmentBuffer :=
  xs.foldl (SegmentBuffer.addSample t) b

/-- Property that the buffer table has pairwise distinct keys, as a real
Python dict does. -/
def keysNodup (svc : AggregationService) : Prop :=
  (svc.buffers.map Prod.fst).Nodup

/-- A sequence of six identical in-range observations. -/
def seq6 : List (ℚ × ℚ) := List.replicate 6 (1/2, 1)

/-- A plain in-range vehicle sample used by concrete instances. -/
def sample0 : VehicleSample :=
  { comfort_score := 1/2, confidence := 1, vehicle_id := "v", timestamp := 0,
    speed := 0, heading := 0 }

/-- A buffer whose window expired exactly at `BUFFER_TTL_SECONDS`. -/
def bufExpired : SegmentBuffer :=
  { segment_id := "k", samples := [sample0], aggregated_score := some (1/2),
    last_updated := 0, expires_at := some BUFFER_TTL_SECONDS }

/-- A service holding only the expired buffer. -/
def svcExpired : AggregationService :=
  { BUFFER_LIMIT := 10, TTL_days := 30, buffers := [("k", bufExpired)] }

/-- A valid buffer with a full (finalized) window. -/
def bufFinal : SegmentBuffer :=
  { segment_id := "a", samples := List.replicate 10 sample0,
    aggregated_score := some (1/2), last_updated := 0, expires_at := some 10 }

/-- A valid buffer with a single sample (not finalized). -/
def bufSmall : SegmentBuffer :=
  { segment_id := "b", samples := [sample0], aggregated_score := some (1/2),
    last_updated := 0, expires_at := some 10 }

/-- A service with one finalized and one non-finalized valid buffer. -/
def svcTwo : AggregationService :=
  { BUFFER_LIMIT := 10, TTL_days := 30,
    buffers := [("a", bufFinal), ("b", bufSmall)] }

/-- A cache entry that expires at time 0. -/
def entry0 : CacheEntry :=
  { comfort_score := 1/2, sample_count := 1, confidence := 0, cached_at := 0,
    expires_at := 0 }

/-- A cache manager holding only the expired entry. -/
def cmExample : CacheManager :=
  { ttl_seconds := 2592000, cache := [("k", entry0)] }

lemma lookupBuf_setBuf_self (m : List (String × SegmentBuffer)) (k : String)
    (b : SegmentBuffer) : lookupBuf (setBuf m k b) k = some b := by
  induction m with
  | nil => simp [setBuf, lookupBuf]
  | cons kb rest ih =>
    by_cases h : kb.1 = k
    · simp [setBuf, h, lookupBuf]
    · simp [setBuf, h, lookupBuf, ih]

lemma lookupBuf_setBuf_other (m : List (String × SegmentBuffer))
    (k k2 : String) (b : SegmentBuffer) (h : k2 ≠ k) :
    lookupBuf (setBuf m k b) k2 = lookupBuf m k2 := by
  have hk : ¬ k = k2 := fun hh => h hh.symm
  induction m with
  | nil => simp [setBuf, lookupBuf, hk]
  | cons kb rest ih =>
    by_cases h1 : kb.1 = k
    · have hk2 : ¬ kb.1 = k2 := by rw [h1]; exact hk
      simp [setBuf, h1, lookupBuf, hk, hk2]
    · by_cases h2 : kb.1 = k2
      · simp [setBuf, h1, lookupBuf, h2, h]
      · simp [setBuf, h1, lookupBuf, h2, ih]

lemma lookupBuf_eq_none_of_not_mem (m : List (String × SegmentBuffer))
    (k : String) (h : k ∉ m.map Prod.fst) : lookupBuf m k = none := by
  induction m with
  | nil => rfl
  | cons kb rest ih =>
    simp only [List.map_cons, List.mem_cons] at h
    push_neg at h
    have hk : ¬ kb.1 = k := fun hh => h.1 hh.symm
    simp [lookupBuf, hk, ih h.2]

lemma mem_of_lookupBuf_eq_some (m : List (String × SegmentBuffer))
    (k : String) (b : SegmentBuffer) (h : lookupBuf m k = some b) :
    (k, b) ∈ m := by
  induction m with
  | nil => simp [lookupBuf] at h
  | cons kb rest ih =>
    by_cases h1 : kb.1 = k
    · simp only [lookupBuf, h1, if_true, Option.some.injEq] at h
      have hkb : kb = (k, b) := by
        cases kb with
        | mk a c => simp_all
      rw [← hkb]
      exact List.mem_cons_self _ _
    · simp only [lookupBuf, h1, if_false] at h
      exact List.mem_cons_of_mem _ (ih h)

lemma lookupBuf_filter (m : List (String × SegmentBuffer)) (k : String)
    (p : String × SegmentBuffer → Bool) (hnd : (m.map Prod.fst).Nodup) :
    lookupBuf (m.filter p) k
      = (lookupBuf m k).bind (fun b => if p (k, b) then some b else none) := by
  induction m with
  | nil => rfl
  | cons kb rest ih =>
    simp only [List.map_cons, List.nodup_cons] at hnd
    obtain ⟨hnmem, hnd2⟩ := hnd
    by_cases h1 : kb.1 = k
    · subst h1
      by_cases hp : p kb = true
      · have hkb : p (kb.1, kb.2) = true := by simpa using hp
        simp [List.filter_cons, hp, lookupBuf, hkb]
      · have hkb : ¬ p (kb.1, kb.2) = true := by simpa using hp
        have hrest : lookupBuf (rest.filter p) kb.1 = none := by
          refine lookupBuf_eq_none_of_not_mem _ _ (fun hmem => hnmem ?_)
          rcases List.mem_map.mp hmem with ⟨y, hy, hfst⟩
          exact List.mem_map.mpr ⟨y, List.mem_of_mem_filter hy, hfst⟩
        simp [List.filter_cons, hp, lookupBuf, hrest, hkb]
    · by_cases hp : p kb = true
      · simp [List.filter_cons, hp, lookupBuf, h1, ih hnd2]
      · simp [List.filter_cons, hp, lookupBuf, h1, ih hnd2]

lemma length_dequeAppend (w : List VehicleSample) (x : VehicleSample) :
    (dequeAppend WINDOW_MAXLEN w x).length = min (w.length + 1) WINDOW_MAXLEN := by
  unfold dequeAppend
  have hl : (w ++ [x]).length = w.length + 1 := by simp
  by_cases h : WINDOW_MAXLEN < (w ++ [x]).length
  · rw [if_pos h, List.length_drop, hl]
    rw [hl] at h
    omega
  · rw [if_neg h, hl]
    rw [hl] at h
    omega

lemma dequeAppend_ne_nil (w : List VehicleSample) (x : VehicleSample) :
    dequeAppend WINDOW_MAXLEN w x ≠ [] := by
  intro hnil
  have h := length_dequeAppend w x
  rw [hnil] at h
  simp only [List.length_nil, WINDOW_MAXLEN] at h
  omega

lemma getLast?_dequeAppend (w : List VehicleSample) (x : VehicleSample) :
    (dequeAppend WINDOW_MAXLEN w x).getLast? = some x := by
  unfold dequeAppend
  have hl : (w ++ [x]).length = w.length + 1 := by simp
  by_cases h : WINDOW_MAXLEN < (w ++ [x]).length
  · rw [if_pos h]
    have hlen : (w ++ [x]).length - WINDOW_MAXLEN ≤ w.length := by
      rw [hl]
      simp only [WINDOW_MAXLEN]
      omega
    rw [List.drop_append_of_le_length hlen, List.getLast?_concat]
  · rw [if_neg h, List.getLast?_concat]

lemma updateAggregation_samples (b : SegmentBuffer) :
    (SegmentBuffer.updateAggregation b).samples = b.samples := by
  unfold SegmentBuffer.updateAggregation
  split <;> rfl

lemma addSample_samples (t : ℚ) (b : SegmentBuffer) (x : VehicleSample) :
    (SegmentBuffer.addSample t b x).samples
      = dequeAppend WINDOW_MAXLEN b.samples x := by
  unfold SegmentBuffer.addSample
  rw [updateAggregation_samples]

lemma addSample_agg (t : ℚ) (b : SegmentBuffer) (x : VehicleSample) :
    (SegmentBuffer.addSample t b x).aggregated_score
      = aggOf (dequeAppend WINDOW_MAXLEN b.samples x) := by
  have h : ¬ dequeAppend WINDOW_MAXLEN b.samples x = [] :=
    dequeAppend_ne_nil b.samples x
  simp [SegmentBuffer.addSample, SegmentBuffer.updateAggregation, aggOf, h]

lemma windowFold_samples (t : ℚ) (b : SegmentBuffer) (xs : List VehicleSample) :
    (windowFold t b xs).samples
      = xs.foldl (dequeAppend WINDOW_MAXLEN) b.samples := by
  induction xs generalizing b with
  | nil => rfl
  | cons x rest ih =>
    show (windowFold t (SegmentBuffer.addSample t b x) rest).samples = _
    rw [ih, addSample_samples]
    rfl

lemma windowFold_agg (t : ℚ) (b : SegmentBuffer) (xs : List VehicleSample)
    (h : xs ≠ []) :
    (windowFold t b xs).aggregated_score = aggOf (windowFold t b xs).samples := by
  rcases List.eq_nil_or_concat xs with h0 | ⟨ys, y, rfl⟩
  · exact absurd h0 h
  · unfold windowFold
    rw [List.concat_eq_append, List.foldl_append]
    show (SegmentBuffer.addSample t (windowFold t b ys) y).aggregated_score
      = aggOf (SegmentBuffer.addSample t (windowFold t b ys) y).samples
    rw [addSample_agg, addSample_samples]

lemma ingestSeq_nil (svc : AggregationService) (t : ℚ) (k : String) :
    ingestSeq svc t k [] = svc := rfl

lemma ingestSeq_cons (svc : AggregationService) (t : ℚ) (k : String)
    (p : ℚ × ℚ) (l : List (ℚ × ℚ)) :
    ingestSeq svc t k (p :: l)
      = ingestSeq (svc.ingestPrediction t k p.1 p.2 "v" 0 0 none).2 t k l := rfl

lemma ingestSeq_append (svc : AggregationService) (t : ℚ) (k : String)
    (l1 l2 : List (ℚ × ℚ)) :
    ingestSeq svc t k (l1 ++ l2) = ingestSeq (ingestSeq svc t k l1) t k l2 := by
  unfold ingestSeq
  rw [List.foldl_append]

lemma ingest_step_lookup (svc : AggregationService) (t : ℚ) (k : String)
    (p : ℚ × ℚ) :
    lookupBuf ((svc.ingestPrediction t k p.1 p.2 "v" 0 0 none).2).buffers k
      = some (SegmentBuffer.addSample t
          ((lookupBuf svc.buffers k).getD (newBuffer k t)) (mkSample t p)) :=
  lookupBuf_setBuf_self _ _ _

lemma ingestSeq_lookup_some (t : ℚ) (k : String) (l : List (ℚ × ℚ)) :
    ∀ (svc : AggregationService) (b : SegmentBuffer),
      lookupBuf svc.buffers k = some b →
      lookupBuf (ingestSeq svc t k l).buffers k
        = some (windowFold t b (l.map (mkSample t))) := by
  induction l with
  | nil =>
    intro svc b h
    simpa [ingestSeq_nil, windowFold] using h
  | cons p rest ih =>
    intro svc b h
    rw [ingestSeq_cons]
    have h1 := ingest_step_lookup svc t k p
    rw [h, Option.getD_some] at h1
    have h2 := ih _ _ h1
    rw [h2]
    rfl

lemma ingestSeq_lookup_new (t : ℚ) (k : String) (l : List (ℚ × ℚ))
    (h : l ≠ []) (svc : AggregationService)
    (h0 : lookupBuf svc.buffers k = none) :
    lookupBuf (ingestSeq svc t k l).buffers k
      = some (windowFold t (newBuffer k t) (l.map (mkSample t))) := by
  cases l with
  | nil => exact absurd rfl h
  | cons p rest =>
    rw [ingestSeq_cons]
    have h1 := ingest_step_lookup svc t k p
    rw [h0, Option.getD_none] at h1
    have h2 := ingestSeq_lookup_some t k rest _ _ h1
    rw [h2]
    rfl

lemma windowAfter_eq (t : ℚ) (k : String) (l : List (ℚ × ℚ)) :
    windowAfter t k l
      = (l.map (mkSample t)).foldl (dequeAppend WINDOW_MAXLEN) [] := by
  cases l with
  | nil => rfl
  | cons p rest =>
    have hl := ingestSeq_lookup_new t k (p :: rest) (List.cons_ne_nil p rest)
      svc0 rfl
    unfold windowAfter
    rw [hl]
    show (windowFold t (newBuffer k t) ((p :: rest).map (mkSample t))).samples = _
    rw [windowFold_samples]
    rfl

lemma aggregateAfter_eq (t : ℚ) (k : String) (l : List (ℚ × ℚ)) (h : l ≠ []) :
    aggregateAfter t k l = some (aggOf (windowAfter t k l)) := by
  rcases List.exists_cons_of_ne_nil h with ⟨p, rest, rfl⟩
  have hl := ingestSeq_lookup_new t k (p :: rest) (List.cons_ne_nil p rest)
    svc0 rfl
  unfold aggregateAfter windowAfter
  rw [hl]
  show some (windowFold t (newBuffer k t) ((p :: rest).map (mkSample t))).aggregated_score
    = some (aggOf (windowFold t (newBuffer k t) ((p :: rest).map (mkSample t))).samples)
  rw [windowFold_agg]
  simp

lemma foldl_dequeAppend_length (xs : List VehicleSample) :
    ∀ acc : List VehicleSample, acc.length ≤ WINDOW_MAXLEN →
      (xs.foldl (dequeAppend WINDOW_MAXLEN) acc).length
        = min (acc.length + xs.length) WINDOW_MAXLEN := by
  induction xs with
  | nil =>
    intro acc h
    rw [List.foldl_nil, List.length_nil]
    omega
  | cons x rest ih =>
    intro acc h
    rw [List.foldl_cons]
    have h1 : (dequeAppend WINDOW_MAXLEN acc x).length
        = min (acc.length + 1) WINDOW_MAXLEN := length_dequeAppend acc x
    have h2 : (dequeAppend WINDOW_MAXLEN acc x).length ≤ WINDOW_MAXLEN := by
      omega
    rw [ih _ h2, h1, List.length_cons]
    omega

lemma foldl_dequeAppend_of_le (xs : List VehicleSample) :
    ∀ acc : List VehicleSample, acc.length + xs.length ≤ WINDOW_MAXLEN →
      xs.foldl (dequeAppend WINDOW_MAXLEN) acc = acc ++ xs := by
  induction xs with
  | nil =>
    intro acc h
    simp
  | cons x rest ih =>
    intro acc h
    rw [List.foldl_cons]
    have hx : dequeAppend WINDOW_MAXLEN acc x = acc ++ [x] := by
      unfold dequeAppend
      have hc : ¬ WINDOW_MAXLEN < (acc ++ [x]).length := by
        simp only [List.length_append, List.length_singleton]
        simp only [List.length_cons] at h
        omega
      rw [if_neg hc]
    have hlen : (acc ++ [x]).length + rest.length ≤ WINDOW_MAXLEN := by
      simp only [List.length_append, List.length_singleton]
      simp only [List.length_cons] at h
      omega
    rw [hx, ih _ hlen]
    simp

lemma foldl_dequeAppend_eleven (xs : List VehicleSample) (h : xs.length = 11) :
    xs.foldl (dequeAppend WINDOW_MAXLEN) [] = xs.tail := by
  rcases List.eq_nil_or_concat xs with h0 | ⟨ys, y, rfl⟩
  · rw [h0] at h
    simp at h
  · rw [List.concat_eq_append] at h ⊢
    have hys : ys.length = 10 := by
      simp only [List.length_append, List.length_singleton] at h
      omega
    rw [List.foldl_append]
    rw [foldl_dequeAppend_of_le ys [] (by simp [hys, WINDOW_MAXLEN])]
    rw [List.nil_append, List.foldl_cons, List.foldl_nil]
    unfold dequeAppend
    have hgt : WINDOW_MAXLEN < (ys ++ [y]).length := by
      simp [hys, WINDOW_MAXLEN]
    rw [if_pos hgt]
    have hone : (ys ++ [y]).length - WINDOW_MAXLEN = 1 := by
      simp [hys, WINDOW_MAXLEN]
    rw [hone, List.drop_one]

lemma weightSum_map (t : ℚ) (l : List (ℚ × ℚ)) :
    weightSum (l.map (mkSample t)) = (l.map Prod.snd).sum := by
  unfold weightSum
  rw [List.map_map]
  rfl

lemma scoreWeightSum_map (t : ℚ) (l : List (ℚ × ℚ)) :
    scoreWeightSum (l.map (mkSample t)) = (l.map (fun p => p.1 * p.2)).sum := by
  unfold scoreWeightSum
  rw [List.map_map]
  rfl

lemma ingestSeq_buffers_congr (t : ℚ) (k : String) (l : List (ℚ × ℚ)) :
    ∀ (svc1 svc2 : AggregationService), svc1.buffers = svc2.buffers →
      (ingestSeq svc1 t k l).buffers = (ingestSeq svc2 t k l).buffers := by
  induction l with
  | nil =>
    intro s1 s2 h
    exact h
  | cons p rest ih =>
    intro s1 s2 h
    rw [ingestSeq_cons, ingestSeq_cons]
    apply ih
    show setBuf s1.buffers k _ = setBuf s2.buffers k _
    rw [h]

lemma windowAfter_length (t : ℚ) (k : String) (l : List (ℚ × ℚ)) :
    (windowAfter t k l).length = min l.length WINDOW_MAXLEN := by
  rw [windowAfter_eq]
  have h := foldl_dequeAppend_length (l.map (mkSample t)) [] (by simp)
  simpa using h

lemma finalizedAfter_iff (t : ℚ) (k : String) (l : List (ℚ × ℚ)) :
    finalizedAfter t k l = true ↔ FINALIZE_N ≤ l.length := by
  cases l with
  | nil =>
    have hF : finalizedAfter t k [] = false := rfl
    rw [hF]
    simp [FINALIZE_N]
  | cons p rest =>
    have hl := ingestSeq_lookup_new t k (p :: rest) (List.cons_ne_nil p rest)
      svc0 rfl
    have hfin : finalizedAfter t k (p :: rest)
        = (windowFold t (newBuffer k t) ((p :: rest).map (mkSample t))).isFinalized := by
      unfold finalizedAfter
      rw [hl]
    have hwin : windowAfter t k (p :: rest)
        = (windowFold t (newBuffer k t) ((p :: rest).map (mkSample t))).samples := by
      unfold windowAfter
      rw [hl]
    have hlen := windowAfter_length t k (p :: rest)
    rw [hwin] at hlen
    rw [hfin]
    unfold SegmentBuffer.isFinalized
    rw [decide_eq_true_eq, hlen]
    simp only [FINALIZE_N, WINDOW_MAXLEN, List.length_cons]
    omega

/-- Claim C1, counterexample. A call to `ingest_prediction` with
`comfort_score = 2` and `confidence = 3/2`, both outside `[0, 1]`, does not
fail: it creates a window for the key and stores the sample (the returned
sample count is 1), contradicting the claim that such a call fails with
`InputError` and mutates nothing. -/
theorem C1_counterexample :
    ¬ ((2 : ℚ) ≤ 1)
    ∧ ¬ ((3/2 : ℚ) ≤ 1)
    ∧ lookupBuf ((svc0.ingestPrediction 0 "seg" 2 (3/2) "v" 0 0 none).2).buffers
        "seg" ≠ none
    ∧ (svc0.ingestPrediction 0 "seg" 2 (3/2) "v" 0 0 none).1.sample_count = 1 := by
  refine ⟨by norm_num, by norm_num, ?_, ?_⟩
  · simp [AggregationService.ingestPrediction, svc0, lookupBuf, setBuf]
  · simp [AggregationService.ingestPrediction, svc0, lookupBuf, setBuf,
      newBuffer, SegmentBuffer.addSample, SegmentBuffer.updateAggregation,
      dequeAppend, SegmentBuffer.sampleCount, WINDOW_MAXLEN, weightSum,
      scoreWeightSum]

/-- Claim C1, amended: `ingest_prediction` performs no range validation on
`score` or `confidence` and has no `InputError` path. Every call succeeds —
for arbitrary (even out-of-range) values it creates the window if absent,
appends exactly the given sample as the newest entry, returns the updated
sample count, and leaves every other key's window untouched. -/
theorem C1_ingest_always_succeeds (svc : AggregationService) (now : ℚ)
    (k : String) (sc cf : ℚ) (vid : String) (sp hd : ℚ) (ts : Option ℚ) :
    ((lookupBuf ((svc.ingestPrediction now k sc cf vid sp hd ts).2).buffers k).map
        (fun b => b.samples.getLast?))
      = some (some { comfort_score := sc, confidence := cf, vehicle_id := vid,
                     timestamp := ts.getD now, speed := sp, heading := hd })
    ∧ (∀ k2, k2 ≠ k →
        lookupBuf ((svc.ingestPrediction now k sc cf vid sp hd ts).2).buffers k2
          = lookupBuf svc.buffers k2)
    ∧ ((lookupBuf ((svc.ingestPrediction now k sc cf vid sp hd ts).2).buffers k).map
        SegmentBuffer.sampleCount)
      = some (svc.ingestPrediction now k sc cf vid sp hd ts).1.sample_count := by
  refine ⟨?_, ?_, ?_⟩
  · show (lookupBuf (setBuf svc.buffers k _) k).map _ = _
    rw [lookupBuf_setBuf_self]
    simp only [Option.map_some']
    rw [addSample_samples, getLast?_dequeAppend]
  · intro k2 h2
    exact lookupBuf_setBuf_other _ _ _ _ h2
  · show (lookupBuf (setBuf svc.buffers k _) k).map _ = _
    rw [lookupBuf_setBuf_self]
    rfl

/-- Witness for C1: a concrete out-of-range ingest at a fresh service —
the sample with score 3/2 and confidence -1 is stored as the newest entry
of key "seg", and key "other" is unchanged. -/
theorem C1_ingest_always_succeeds_witness :
    ((lookupBuf ((svc0.ingestPrediction 0 "seg" (3/2) (-1) "car" 0 0 none).2).buffers
        "seg").map (fun b => b.samples.getLast?))
      = some (some { comfort_score := 3/2, confidence := -1, vehicle_id := "car",
                     timestamp := (none : Option ℚ).getD 0, speed := 0,
                     heading := 0 })
    ∧ lookupBuf ((svc0.ingestPrediction 0 "seg" (3/2) (-1) "car" 0 0 none).2).buffers
        "other" = lookupBuf svc0.buffers "other" := by
  constructor
  · exact (C1_ingest_always_succeeds svc0 0 "seg" (3/2) (-1) "car" 0 0 none).1
  · exact (C1_ingest_always_succeeds svc0 0 "seg" (3/2) (-1) "car" 0 0 none).2.1
      "other" (by decide)

/-- Claim C2, counterexample. Ingesting a single sample with score 7/10
and confidence 0 (a non-empty window whose confidences are all zero)
stores a NaN aggregate (`none`), not the unweighted mean 7/10: the code
divides by the zero confidence sum with no fallback. -/
theorem C2_counterexample :
    aggregateAfter 0 "s" [(7/10, 0)] = some none
    ∧ (some (none : Option ℚ)) ≠ some (some ((7 : ℚ)/10)) := by
  constructor
  · simp [aggregateAfter, ingestSeq, AggregationService.ingestPrediction, svc0,
      lookupBuf, setBuf, newBuffer, SegmentBuffer.addSample,
      SegmentBuffer.updateAggregation, dequeAppend, weightSum, scoreWeightSum,
      WINDOW_MAXLEN]
  · simp

/-- Claim C2, amended: the empty window carries the neutral aggregate 0.5,
and the aggregate returned by every insert equals `aggOf` of the resulting
window — the confidence-weighted mean when the confidences do not sum to
zero, and NaN (`none`) when they do. There is no unweighted-mean fallback:
a non-empty window whose confidences sum to zero yields NaN. -/
theorem C2_aggregate_on_insert (svc : AggregationService) (now : ℚ)
    (k : String) (sc cf : ℚ) (vid : String) (sp hd : ℚ) (ts : Option ℚ) :
    ((svc.ingestPrediction now k sc cf vid sp hd ts).1.aggregated_score
      = aggOf (dequeAppend WINDOW_MAXLEN
          ((lookupBuf svc.buffers k).getD (newBuffer k now)).samples
          { comfort_score := sc, confidence := cf, vehicle_id := vid,
            timestamp := ts.getD now, speed := sp, heading := hd }))
    ∧ (weightSum (dequeAppend WINDOW_MAXLEN
          ((lookupBuf svc.buffers k).getD (newBuffer k now)).samples
          { comfort_score := sc, confidence := cf, vehicle_id := vid,
            timestamp := ts.getD now, speed := sp, heading := hd }) = 0 →
        (svc.ingestPrediction now k sc cf vid sp hd ts).1.aggregated_score = none)
    ∧ (newBuffer k now).aggregated_score = some (1/2) := by
  have hmain : (svc.ingestPrediction now k sc cf vid sp hd ts).1.aggregated_score
      = aggOf (dequeAppend WINDOW_MAXLEN
          ((lookupBuf svc.buffers k).getD (newBuffer k now)).samples
          { comfort_score := sc, confidence := cf, vehicle_id := vid,
            timestamp := ts.getD now, speed := sp, heading := hd }) := by
    exact addSample_agg now _ _
  refine ⟨hmain, ?_, rfl⟩
  intro hz
  rw [hmain]
  unfold aggOf
  rw [if_pos hz]

/-- Witness for C2: at a fresh service, ingesting score 7/10 with
confidence 0 returns the NaN aggregate. -/
theorem C2_aggregate_on_insert_witness :
    (svc0.ingestPrediction 0 "s" (7/10) 0 "v" 0 0 none).1.aggregated_score
      = none := by
  apply (C2_aggregate_on_insert svc0 0 "s" (7/10) 0 "v" 0 0 none).2.1
  simp [svc0, lookupBuf, newBuffer, dequeAppend, weightSum, WINDOW_MAXLEN]

/-- Claim C3, counterexample to the quoted example value. Inserting scores
[0.7, 0.8, 0.6] with confidences [0.9, 0.95, 0.8] yields the aggregate
187/265 ≈ 0.70566, which differs from the claimed 0.718 by more than 0.01
(so the aggregate is not ≈ 0.718); it is ≈ 0.706. -/
theorem C3_counterexample :
    aggregateAfter 0 "s" [(7/10, 9/10), (8/10, 19/20), (6/10, 8/10)]
      = some (some (187/265))
    ∧ ¬ |(187 : ℚ)/265 - 718/1000| ≤ 1/100
    ∧ |(187 : ℚ)/265 - 706/1000| ≤ 1/1000 := by
  refine ⟨?_, ?_, ?_⟩
  · simp [aggregateAfter, ingestSeq, AggregationService.ingestPrediction, svc0,
      lookupBuf, setBuf, newBuffer, SegmentBuffer.addSample,
      SegmentBuffer.updateAggregation, dequeAppend, weightSum, scoreWeightSum,
      WINDOW_MAXLEN]
    norm_num
  · rw [abs_of_neg (by norm_num : (187 : ℚ)/265 - 718/1000 < 0)]
    norm_num
  · rw [abs_of_neg (by norm_num : (187 : ℚ)/265 - 706/1000 < 0)]
    norm_num

/-- Claim C3, amended: for every non-empty sequence of at most 10 inserts
to one key whose confidences do not sum to zero, the stored aggregate is
exactly the confidence-weighted mean of the inserted samples (weights
normalized to sum 1); for the quoted example the value is 187/265 ≈ 0.706,
not ≈ 0.718. -/
theorem C3_weighted_mean (t : ℚ) (k : String) (l : List (ℚ × ℚ))
    (h1 : l ≠ []) (h2 : l.length ≤ 10) (h3 : (l.map Prod.snd).sum ≠ 0) :
    aggregateAfter t k l
      = some (some ((l.map (fun p => p.1 * p.2)).sum / (l.map Prod.snd).sum)) := by
  rw [aggregateAfter_eq t k l h1, windowAfter_eq]
  rw [foldl_dequeAppend_of_le (l.map (mkSample t)) []
    (by simpa [WINDOW_MAXLEN] using h2)]
  rw [List.nil_append]
  unfold aggOf
  rw [weightSum_map, scoreWeightSum_map, if_neg h3]

/-- Witness for C3: the quoted three-sample example evaluates to exactly
187/265. -/
theorem C3_weighted_mean_witness :
    aggregateAfter 0 "k" [(7/10, 9/10), (8/10, 19/20), (6/10, 8/10)]
      = some (some (187/265)) := by
  have h := C3_weighted_mean 0 "k" [(7/10, 9/10), (8/10, 19/20), (6/10, 8/10)]
    (by simp) (by simp) (by norm_num)
  rw [h]
  norm_num

/-- Claim C4: confirmed. Every key's window holds at most 10 samples after
any sequence of inserts, and after exactly 11 inserts the window contains
precisely samples #2 through #11 in insertion order (FIFO eviction of the
oldest), with the aggregate computed over only those samples. -/
theorem C4_window_fifo (t : ℚ) (k : String) :
    (∀ l : List (ℚ × ℚ), (windowAfter t k l).length ≤ 10)
    ∧ (∀ l : List (ℚ × ℚ), l.length = 11 →
        windowAfter t k l = (l.map (mkSample t)).tail
        ∧ aggregateAfter t k l = some (aggOf ((l.map (mkSample t)).tail))) := by
  have hwin : ∀ l : List (ℚ × ℚ), l.length = 11 →
      windowAfter t k l = (l.map (mkSample t)).tail := by
    intro l hl
    rw [windowAfter_eq]
    have hm : (l.map (mkSample t)).length = 11 := by simp [hl]
    rw [foldl_dequeAppend_eleven _ hm]
  constructor
  · intro l
    rw [windowAfter_length]
    simp only [WINDOW_MAXLEN]
    omega
  · intro l hl
    refine ⟨hwin l hl, ?_⟩
    have hne : l ≠ [] := by
      intro h0
      rw [h0] at hl
      simp at hl
    rw [aggregateAfter_eq t k l hne, hwin l hl]

/-- Witness for C4: a concrete run of 11 inserts leaves exactly the last
10 samples and the matching aggregate. -/
theorem C4_window_fifo_witness :
    windowAfter 0 "w"
        [(0, 1), (1/10, 1), (2/10, 1), (3/10, 1), (4/10, 1), (5/10, 1),
          (6/10, 1), (7/10, 1), (8/10, 1), (9/10, 1), (1, 1)]
      = (([(0, 1), (1/10, 1), (2/10, 1), (3/10, 1), (4/10, 1), (5/10, 1),
          (6/10, 1), (7/10, 1), (8/10, 1), (9/10, 1),
          ((1 : ℚ), (1 : ℚ))].map (mkSample 0)).tail)
    ∧ aggregateAfter 0 "w"
        [(0, 1), (1/10, 1), (2/10, 1), (3/10, 1), (4/10, 1), (5/10, 1),
          (6/10, 1), (7/10, 1), (8/10, 1), (9/10, 1), (1, 1)]
      = some (aggOf (([(0, 1), (1/10, 1), (2/10, 1), (3/10, 1), (4/10, 1),
          (5/10, 1), (6/10, 1), (7/10, 1), (8/10, 1), (9/10, 1),
          ((1 : ℚ), (1 : ℚ))].map (mkSample 0)).tail)) :=
  (C4_window_fifo 0 "w").2
    [(0, 1), (1/10, 1), (2/10, 1), (3/10, 1), (4/10, 1), (5/10, 1),
      (6/10, 1), (7/10, 1), (8/10, 1), (9/10, 1), (1, 1)] (by simp)

/-- Claim C5, counterexample. After inserting scores 1/10 then 9/10,
`get_recent_predictions` with limit 1 returns the OLDEST sample (score
1/10), not the most recent one (score 9/10): the code takes the first
`limit` entries of the window in insertion order. -/
theorem C5_counterexample :
    ((ingestSeq svc0 0 "s" [(1/10, 1), (9/10, 1)]).getRecentPredictions
        "s" 1).1 = [mkSample 0 (1/10, 1)]
    ∧ [mkSample 0 (1/10, 1)] ≠ [mkSample 0 (9/10, 1)] := by
  constructor
  · simp [AggregationService.getRecentPredictions, ingestSeq,
      AggregationService.ingestPrediction, svc0, lookupBuf, setBuf, newBuffer,
      SegmentBuffer.addSample, SegmentBuffer.updateAggregation, dequeAppend,
      weightSum, scoreWeightSum, WINDOW_MAXLEN, mkSample]
  · simp [mkSample]
    norm_num

/-- Claim C5, amended: `get_recent_predictions` returns the empty sequence
(not an error) for an absent key, and otherwise the first `limit` window
entries in insertion order (oldest first) — not most-recent-first. -/
theorem C5_recent_oldest_first (t : ℚ) (k : String) (limit : Nat) :
    (∀ svc : AggregationService, lookupBuf svc.buffers k = none →
        (svc.getRecentPredictions k limit).1 = [])
    ∧ (∀ l : List (ℚ × ℚ),
        ((ingestSeq svc0 t k l).getRecentPredictions k limit).1
          = (windowAfter t k l).take limit)
    ∧ (∀ l : List (ℚ × ℚ), l.length ≤ 10 →
        ((ingestSeq svc0 t k l).getRecentPredictions k limit).1
          = (l.map (mkSample t)).take limit) := by
  have hmid : ∀ l : List (ℚ × ℚ),
      ((ingestSeq svc0 t k l).getRecentPredictions k limit).1
        = (windowAfter t k l).take limit := by
    intro l
    cases l with
    | nil =>
      simp [AggregationService.getRecentPredictions, ingestSeq_nil, svc0,
        lookupBuf, windowAfter]
    | cons p rest =>
      have hl := ingestSeq_lookup_new t k (p :: rest) (List.cons_ne_nil p rest)
        svc0 rfl
      unfold AggregationService.getRecentPredictions windowAfter
      rw [hl]
  refine ⟨?_, hmid, ?_⟩
  · intro svc h
    unfold AggregationService.getRecentPredictions
    rw [h]
  · intro l hl
    rw [hmid l, windowAfter_eq,
      foldl_dequeAppend_of_le _ [] (by simpa [WINDOW_MAXLEN] using hl),
      List.nil_append]

/-- Witness for C5: two concrete inserts, limit 1 — the returned entry is
the oldest-first prefix of the window. -/
theorem C5_recent_oldest_first_witness :
    ((ingestSeq svc0 0 "s" [(1/10, 1), (9/10, 1)]).getRecentPredictions
        "s" 1).1
      = ([((1 : ℚ)/10, (1 : ℚ)), (9/10, 1)].map (mkSample 0)).take 1 :=
  (C5_recent_oldest_first 0 "s" 1).2.2 [(1/10, 1), (9/10, 1)] (by simp)

/-- Claim C6, counterexample. A store constructed with window capacity 5
does not evict at 5 and does not finalize at 5: after six inserts the
window holds 6 samples and is not finalized, because `SegmentBuffer`
hard-codes `deque(maxlen=10)` and `>= 10` regardless of the constructor's
`segment_buffer_limit`. -/
theorem C6_counterexample :
    ((lookupBuf (ingestSeq { BUFFER_LIMIT := 5, TTL_days := 30, buffers := [] }
          0 "s" seq6).buffers "s").map SegmentBuffer.sampleCount = some 6)
    ∧ ((lookupBuf (ingestSeq { BUFFER_LIMIT := 5, TTL_days := 30, buffers := [] }
          0 "s" seq6).buffers "s").map SegmentBuffer.isFinalized = some false) := by
  have hne : seq6 ≠ [] := by simp [seq6]
  have hl := ingestSeq_lookup_new 0 "s" seq6 hne
    { BUFFER_LIMIT := 5, TTL_days := 30, buffers := [] } rfl
  have hsamp : (windowFold 0 (newBuffer "s" 0) (seq6.map (mkSample 0))).samples
      = seq6.map (mkSample 0) := by
    rw [windowFold_samples]
    exact foldl_dequeAppend_of_le _ [] (by simp [WINDOW_MAXLEN, seq6])
  rw [hl]
  constructor
  · simp only [Option.map_some', Option.some.injEq, SegmentBuffer.sampleCount]
    rw [hsamp]
    simp [seq6]
  · simp only [Option.map_some', Option.some.injEq, SegmentBuffer.isFinalized]
    rw [hsamp]
    simp [seq6, FINALIZE_N]

/-- Claim C6, amended: the constructor's `segment_buffer_limit` (and
`ttl_days`) have no effect on buffer behavior — ingestion produces
identical buffer tables for any two configurations — and the capacity
actually used is the hard-coded 10: the window length is `min(#inserts,
10)` and finalization happens exactly at 10 samples. -/
theorem C6_capacity_hardcoded (c1 c2 d1 d2 : Nat) (t : ℚ) (k : String)
    (l : List (ℚ × ℚ)) :
    (ingestSeq { BUFFER_LIMIT := c1, TTL_days := d1, buffers := [] } t k l).buffers
      = (ingestSeq { BUFFER_LIMIT := c2, TTL_days := d2, buffers := [] } t k l).buffers
    ∧ (windowAfter t k l).length = min l.length WINDOW_MAXLEN
    ∧ (finalizedAfter t k l = true ↔ FINALIZE_N ≤ l.length) :=
  ⟨ingestSeq_buffers_congr t k l _ _ rfl, windowAfter_length t k l,
    finalizedAfter_iff t k l⟩

/-- Claim C7: confirmed. The finalized flag equals `len(samples) >= N`;
it is false for 1–9 inserts, true from the 10th insert onward, and stays
true under any further inserts. -/
theorem C7_finalized_monotone (t : ℚ) (k : String) :
    (∀ l : List (ℚ × ℚ),
        (finalizedAfter t k l = true ↔ FINALIZE_N ≤ (windowAfter t k l).length))
    ∧ (∀ l : List (ℚ × ℚ), l.length ≤ 9 → finalizedAfter t k l = false)
    ∧ (∀ l : List (ℚ × ℚ), 10 ≤ l.length → finalizedAfter t k l = true)
    ∧ (∀ (l more : List (ℚ × ℚ)), finalizedAfter t k l = true →
        finalizedAfter t k (l ++ more) = true) := by
  refine ⟨?_, ?_, ?_, ?_⟩
  · intro l
    rw [finalizedAfter_iff, windowAfter_length]
    simp only [FINALIZE_N, WINDOW_MAXLEN]
    omega
  · intro l hl
    cases hb : finalizedAfter t k l
    · rfl
    · exfalso
      have h10 := (finalizedAfter_iff t k l).mp hb
      simp only [FINALIZE_N] at h10
      omega
  · intro l hl
    refine (finalizedAfter_iff t k l).mpr ?_
    simpa [FINALIZE_N] using hl
  · intro l more hl
    have h1 := (finalizedAfter_iff t k l).mp hl
    refine (finalizedAfter_iff t k (l ++ more)).mpr ?_
    simp only [List.length_append, FINALIZE_N] at h1 ⊢
    omega

/-- Witness for C7: three inserts are not finalized, ten are, and an 11th
insert keeps the flag true. -/
theorem C7_finalized_monotone_witness :
    finalizedAfter 0 "w" (List.replicate 3 ((1 : ℚ)/2, (1 : ℚ))) = false
    ∧ finalizedAfter 0 "w" (List.replicate 10 ((1 : ℚ)/2, (1 : ℚ))) = true
    ∧ finalizedAfter 0 "w"
        (List.replicate 10 ((1 : ℚ)/2, (1 : ℚ)) ++ [(0, 0)]) = true := by
  refine ⟨(C7_finalized_monotone 0 "w").2.1 _ (by simp),
    (C7_finalized_monotone 0 "w").2.2.1 _ (by simp), ?_⟩
  exact (C7_finalized_monotone 0 "w").2.2.2 _ _
    ((C7_finalized_monotone 0 "w").2.2.1 _ (by simp))

/-- Claim C8: confirmed. A key never ingested yields `None` from
`get_segment_score`; a key whose window expired one second past its TTL is
still reported, with `is_valid = false`, and the next `cleanup_expired`
removes it (and counts it); more generally the sweep keeps a key exactly
when its buffer is still valid at sweep time. -/
theorem C8_query_and_sweep :
    (∀ (svc : AggregationService) (now : ℚ) (k : String),
        lookupBuf svc.buffers k = none →
        (svc.getSegmentScore now k).1 = none)
    ∧ (∀ (svc : AggregationService) (now : ℚ) (k : String) (b : SegmentBuffer),
        keysNodup svc →
        lookupBuf svc.buffers k = some b →
        b.expires_at = some (b.last_updated + BUFFER_TTL_SECONDS) →
        now = b.last_updated + BUFFER_TTL_SECONDS + 1 →
        ((svc.getSegmentScore now k).1.map SegmentSnapshot.is_valid = some false)
        ∧ lookupBuf ((svc.cleanupExpired now).2).buffers k = none
        ∧ 1 ≤ (svc.cleanupExpired now).1)
    ∧ (∀ (svc : AggregationService) (now : ℚ) (k : String),
        keysNodup svc →
        lookupBuf ((svc.cleanupExpired now).2).buffers k
          = (lookupBuf svc.buffers k).bind
              (fun b => if b.isValid now then some b else none)) := by
  have hsweep : ∀ (svc : AggregationService) (now : ℚ) (k : String),
      keysNodup svc →
      lookupBuf ((svc.cleanupExpired now).2).buffers k
        = (lookupBuf svc.buffers k).bind
            (fun b => if b.isValid now then some b else none) := by
    intro svc now k hnd
    show lookupBuf (svc.buffers.filter (fun kb => kb.2.isValid now)) k = _
    rw [lookupBuf_filter svc.buffers k _ hnd]
  refine ⟨?_, ?_, hsweep⟩
  · intro svc now k h
    unfold AggregationService.getSegmentScore
    rw [h]
  · intro svc now k b hnd hlk hexp hnow
    have hv : b.isValid now = false := by
      unfold SegmentBuffer.isValid
      rw [hexp, hnow]
      show decide (b.last_updated + BUFFER_TTL_SECONDS + 1
        < b.last_updated + BUFFER_TTL_SECONDS) = false
      rw [decide_eq_false_iff_not]
      linarith
    refine ⟨?_, ?_, ?_⟩
    · unfold AggregationService.getSegmentScore
      rw [hlk]
      show some (snapshotOf now k b).is_valid = some false
      unfold snapshotOf
      rw [hv]
    · rw [hsweep svc now k hnd, hlk]
      simp [hv]
    · have hmem : (k, b) ∈ svc.buffers := mem_of_lookupBuf_eq_some _ _ _ hlk
      have hmf : (k, b) ∈ svc.buffers.filter (fun kb => !kb.2.isValid now) :=
        List.mem_filter.mpr ⟨hmem, by simp [hv]⟩
      exact List.length_pos.mpr (List.ne_nil_of_mem hmf)

/-- Witness for C8: a never-ingested key queries to `None`; the concrete
expired buffer is reported invalid and swept away. -/
theorem C8_query_and_sweep_witness :
    ((svc0.getSegmentScore 0 "x").1 = none)
    ∧ ((svcExpired.getSegmentScore (BUFFER_TTL_SECONDS + 1) "k").1.map
        SegmentSnapshot.is_valid = some false)
    ∧ lookupBuf ((svcExpired.cleanupExpired
        (BUFFER_TTL_SECONDS + 1)).2).buffers "k" = none
    ∧ 1 ≤ (svcExpired.cleanupExpired (BUFFER_TTL_SECONDS + 1)).1 := by
  have hb := C8_query_and_sweep.2.1 svcExpired (BUFFER_TTL_SECONDS + 1) "k"
    bufExpired (by simp [keysNodup, svcExpired])
    (by simp [lookupBuf, svcExpired])
    (by norm_num [bufExpired])
    (by norm_num [bufExpired])
  exact ⟨C8_query_and_sweep.1 svc0 0 "x" rfl, hb.1, hb.2.1, hb.2.2⟩

/-- Projection identities for the `get_stats` dictionary. -/
lemma getStats_fields (svc : AggregationService) (now : ℚ) :
    (svc.getStats now).valid_segments
        = ((svc.buffers.map Prod.snd).filter (fun b => b.isValid now)).length
    ∧ (svc.getStats now).finalized_segments
        = (((svc.buffers.map Prod.snd).filter (fun b => b.isValid now)).filter
            (fun b => b.isFinalized)).length
    ∧ (svc.getStats now).finalization_rate
        = (if (svc.buffers.map Prod.snd).filter (fun b => b.isValid now) = []
           then 0
           else ((((svc.buffers.map Prod.snd).filter
                (fun b => b.isValid now)).filter
                  (fun b => b.isFinalized)).length : ℚ)
              / ((((svc.buffers.map Prod.snd).filter
                (fun b => b.isValid now)).length : ℚ))) :=
  ⟨rfl, rfl, rfl⟩

/-- Claim C9: confirmed. `stats().finalization_rate` is exactly 0 when no
valid keys exist and `finalized / valid` otherwise; `finalized_segments`
counts only the valid entries that are finalized, and never exceeds the
valid count, so the division is always well-defined. -/
theorem C9_finalization_rate (svc : AggregationService) (now : ℚ) :
    ((svc.getStats now).valid_segments = 0 →
        (svc.getStats now).finalization_rate = 0)
    ∧ (0 < (svc.getStats now).valid_segments →
        (svc.getStats now).finalization_rate
          = ((svc.getStats now).finalized_segments : ℚ)
            / ((svc.getStats now).valid_segments : ℚ))
    ∧ (svc.getStats now).finalized_segments
        = ((svc.buffers.map Prod.snd).filter
            (fun b => b.isFinalized && b.isValid now)).length
    ∧ (svc.getStats now).finalized_segments
        ≤ (svc.getStats now).valid_segments := by
  obtain ⟨h1, h2, h3⟩ := getStats_fields svc now
  refine ⟨?_, ?_, ?_, ?_⟩
  · intro hz
    rw [h1] at hz
    have h0 : (svc.buffers.map Prod.snd).filter (fun b => b.isValid now) = [] :=
      List.length_eq_zero.mp hz
    rw [h3, if_pos h0]
  · intro hpos
    have hne : ¬ (svc.buffers.map Prod.snd).filter
        (fun b => b.isValid now) = [] := by
      intro h0
      rw [h1, h0] at hpos
      simp at hpos
    rw [h3, if_neg hne, h1, h2]
  · rw [h2, List.filter_filter]
  · rw [h1, h2]
    exact List.length_filter_le _ _

/-- Witness for C9: a population of one finalized and one non-finalized
valid buffer has a positive valid count and the stated ratio. -/
theorem C9_finalization_rate_witness :
    0 < (svcTwo.getStats 0).valid_segments
    ∧ (svcTwo.getStats 0).finalization_rate
      = ((svcTwo.getStats 0).finalized_segments : ℚ)
        / ((svcTwo.getStats 0).valid_segments : ℚ) := by
  have hpos : 0 < (svcTwo.getStats 0).valid_segments := by
    rw [(getStats_fields svcTwo 0).1]
    simp [svcTwo, bufFinal, bufSmall, SegmentBuffer.isValid]
  exact ⟨hpos, (C9_finalization_rate svcTwo 0).2.1 hpos⟩

/-- Claim C10: confirmed. The three read operations of the aggregation
store return the state unchanged — no window is created, deleted or
mutated by `get_segment_score`, `get_all_segments` or
`get_recent_predictions` — whereas the cache mirror's `get_segment` does
mutate its table on an observed expiry. -/
theorem C10_reads_pure :
    (∀ (svc : AggregationService) (now : ℚ) (k : String),
        (svc.getSegmentScore now k).2 = svc)
    ∧ (∀ (svc : AggregationService) (now : ℚ) (i1 i2 : Bool),
        (svc.getAllSegments now i1 i2).2 = svc)
    ∧ (∀ (svc : AggregationService) (k : String) (limit : Nat),
        (svc.getRecentPredictions k limit).2 = svc)
    ∧ (∃ (cm : CacheManager) (now : ℚ) (k : String),
        (cm.getSegment now k).2 ≠ cm) := by
  refine ⟨?_, ?_, ?_, ?_⟩
  · intro svc now k
    unfold AggregationService.getSegmentScore
    cases lookupBuf svc.buffers k <;> rfl
  · intro svc now i1 i2
    rfl
  · intro svc k limit
    unfold AggregationService.getRecentPredictions
    cases lookupBuf svc.buffers k <;> rfl
  · refine ⟨cmExample, 1, "k", ?_⟩
    intro hEq
    have h1 : (cmExample.getSegment 1 "k").2.cache = [] := by
      simp [CacheManager.getSegment, cmExample, lookupCache, removeCache,
        entry0]
    rw [hEq] at h1
    simp [cmExample] at h1

end RoadComfort
